import Mathlib

/-!
# DNS health check (`checks/dns/check.go`)

A shallow embedding of the DNS probe built by `New`, and of `localQuery`.

The probe talks to the outside world through the `miekg/dns` client.  The
outside world is an explicit environment `Env σ`: a state machine over an
arbitrary state type `σ` that answers each exchange (so the same query may be
answered differently at different times), together with the process arguments
`os.Args` and the library functions whose text is not part of the package
(`dns.Fqdn`, the `%q` quoting of `fmt`, the table `dns.RcodeToString`,
`dns.Id`).  Every run returns, besides its outcome, the list of exchanges it
performed, in order, each with what came back; what a statement assumes about
the behaviour of the network is read on that list.

Conventions of the embedding:

* Go strings are Lean strings; an `error` is its message, or `none` for nil.
* `time.Duration` is an integer count of nanoseconds; record types, classes
  and rcodes are natural numbers, as they come off the wire.
* A `dns.Msg` keeps the fields the probe reads or writes; an address record
  carries the text `String()` gives for its address.
* The package-level pointers `localm` and `localc` are part of the state, and a
  run may panic: on a nil pointer, or on an index out of range.
* One invocation runs at a time.
-/

namespace dns

/-! ## Data model -/

/-- Go `error` value: `none` is `nil`, `some s` is an error whose `Error()` is `s`. -/
abbrev error := Option String

/-- Go `time.Duration`: a signed count of nanoseconds. -/
abbrev Duration := Int

/-- The constant `DefaultTimeout = 5 * time.Second`. -/
def DefaultTimeout : Duration := 5 * 1000000000

/-- The record type code `dns.TypeA`. -/
def TypeA : Nat := 1

/-- The record type code `dns.TypeNS`. -/
def TypeNS : Nat := 2

/-- The record type code `dns.TypeSOA`. -/
def TypeSOA : Nat := 6

/-- The record type code `dns.TypeAAAA`. -/
def TypeAAAA : Nat := 28

/-- The class code `dns.ClassINET`. -/
def ClassINET : Nat := 1

/-- The response code `dns.RcodeSuccess` (NOERROR). -/
def RcodeSuccess : Nat := 0

/-- The response code `dns.RcodeNameError` (NXDOMAIN). -/
def RcodeNameError : Nat := 3

/-- A `dns.Question`; the zero value is what `make([]dns.Question, 1)` holds. -/
structure Question where
  Name : String
  Qtype : Nat
  Qclass : Nat
deriving DecidableEq, Inhabited

/-- A resource record of an answer section, as far as the type switches of the
probe tell records apart: `*dns.NS` with its field `Ns`, `*dns.A` and
`*dns.AAAA` with the text `A.String()` / `AAAA.String()` of their address, and
any other record with its type code. -/
inductive RR where
  | NS (Ns : String)
  | A (A : String)
  | AAAA (AAAA : String)
  | other (rrtype : Nat)
deriving DecidableEq

/-- A `dns.Msg`, query or response: the header fields and sections the probe
reads or writes. -/
structure Msg where
  Id : Nat
  RecursionDesired : Bool
  Rcode : Nat
  Question : List Question
  Answer : List RR
deriving DecidableEq

/-- A `dns.Client`, with the one field the probe sets. -/
structure Client where
  ReadTimeout : Duration
deriving DecidableEq

/-- The DNS checker configuration settings container. -/
structure Config where
  FQDN : String
  Domain : String
  NSServer : String
  NSPort : String
  RequestTimeout : Duration
deriving DecidableEq

/-- A `context.Context`, as far as a probe could observe it: its deadline, if
any, and `Err()`, which is non-nil once the context is cancelled or expired. -/
structure Context where
  deadline : Option Int
  Err : error
deriving DecidableEq

/-- One call of `Client.Exchange`: the client, the message sent, the address it
was sent to, and the response and error that came back. -/
structure Sent where
  c : Client
  m : Msg
  address : String
  r : Option Msg
  err : error
deriving DecidableEq

/-- The world outside the package.  `Exchange c m address` is
`c.Exchange(m, address)` and `Id` is `dns.Id()`, both acting on the state of
the world; `Args` is `os.Args`; `Fqdn` is `dns.Fqdn`; `Quote` is the text `%q`
prints for a string; `RcodeToString` is the map of that name, with `""` for a
missing key. -/
structure Env (σ : Type) where
  Args : List String
  Fqdn : String → String
  Quote : String → String
  RcodeToString : Nat → String
  Id : σ → Nat × σ
  Exchange : Client → Msg → String → σ → (Option Msg × error) × σ

/-- The state an invocation works on: the world, and the package-level
variables `localm` and `localc` (`none` is a nil pointer). -/
structure State (σ : Type) where
  world : σ
  localm : Option Msg
  localc : Option Client

/-- A run-time panic of the Go program. -/
inductive Panic where
  | nilDereference
  | indexOutOfRange (index length : Nat)
deriving DecidableEq

/-- How one invocation of a probe ends: it returns an `error` (possibly nil),
or it panics. -/
inductive Outcome where
  | returned (err : error)
  | panicked (p : Panic)
deriving DecidableEq

/-- How the loop over the answer section of the NS response ends: with a
`return` (or panic) from inside the loop, or by running to its end with the
values of `success` and `numNS`. -/
inductive Step where
  | ret (out : Outcome)
  | done (success : Bool) (numNS : Nat)
deriving DecidableEq

/-! ## Library functions -/

/-- Go `strings.ContainsAny(s, chars)`: whether any code point of `chars` is
within `s`. -/
def ContainsAny (s chars : String) : Bool :=
  s.toList.any (fun c => chars.toList.contains c)

/-- Whether `substr` occurs in `s` as a contiguous run. -/
def containsAt : List Char → List Char → Bool
  | [], substr => substr.isEmpty
  | c :: s, substr => substr.isPrefixOf (c :: s) || containsAt s substr

/-- Go `strings.Contains(s, substr)`: whether `substr` is within `s`. -/
def Contains (s substr : String) : Bool :=
  containsAt s.toList substr.toList

/-- What the verb `%s` of `fmt` prints for an `error` operand. -/
def fmtS : error → String
  | none => "%!s(<nil>)"
  | some s => s

/-! ## The probe -/

/-- The function `localQuery`: set the question of `localm`, exchange it through
`localc` with `nsserver:nsport`, and keep only a nil response or one with
rcode NXDOMAIN or NOERROR.  The first component is `none` when a nil
`localm` or `localc` is dereferenced. -/
def localQuery {σ : Type} (env : Env σ) (qname : String) (qtype : Nat)
    (nsserver nsport : String) (st : State σ) :
    Option (Option Msg × error) × List Sent × State σ :=
  match st.localm, st.localc with
  | some lm, some lc =>
    -- localm.SetQuestion(qname, qtype)
    let i := env.Id st.world
    let m : Msg :=
      { lm with Id := i.1, RecursionDesired := true, Question := [⟨qname, qtype, ClassINET⟩] }
    let x := env.Exchange lc m (nsserver ++ ":" ++ nsport) i.2
    let r := x.1.1
    let err := x.1.2
    let st1 : State σ := { world := x.2, localm := some m, localc := some lc }
    let sent : List Sent := [⟨lc, m, nsserver ++ ":" ++ nsport, r, err⟩]
    if err ≠ none then
      (some (none, err), sent, st1)
    else
      match r with
      | none => (some (r, err), sent, st1)
      | some rr =>
        if rr.Rcode = RcodeNameError ∨ rr.Rcode = RcodeSuccess then
          (some (r, err), sent, st1)
        else
          (some (none, some "no name server to answer the question"), sent, st1)
  | _, _ => (none, [], st)

/-- The address the SOA query is sent to, lines 125-131. -/
def nsAddressPort (ip : String) : String :=
  if ContainsAny ":" ip then "[" ++ ip ++ "]:53" else ip ++ ":53"

/-- The loop `for _, ip := range ips`: `true` when it runs to its end (and
`success = true` is reached), `false` when it leaves through `goto Next`.  The
message `m` is written in place, so it is handed from one iteration to the
next and given back at the end. -/
def soaLoop {σ : Type} (env : Env σ) (config : Config) (c : Client) :
    List String → Msg → σ → Bool × List Sent × σ × Msg
  | [], m, w => (true, [], w, m)
  | ip :: ips, m, w =>
    let q : Question := ⟨env.Fqdn config.FQDN, TypeSOA, ClassINET⟩
    let i := env.Id w
    let m1 : Msg := { m with Id := i.1, Question := m.Question.set 0 q }
    let x := env.Exchange c m1 (nsAddressPort ip) i.2
    let soa := x.1.1
    let err := x.1.2
    let sent : Sent := ⟨c, m1, nsAddressPort ip, soa, err⟩
    if err ≠ none ∨ soa = none then
      (false, [sent], x.2, m1)
    else
      match soa with
      | none => (false, [sent], x.2, m1)
      | some s =>
        if s.Rcode ≠ RcodeSuccess then
          (false, [sent], x.2, m1)
        else if s.Answer.length = 0 then
          (false, [sent], x.2, m1)
        else
          let rest := soaLoop env config c ips m1 x.2
          (rest.1, sent :: rest.2.1, rest.2.2)

/-- The addresses of the `*dns.A` records of an answer section. -/
def ipsA (answer : List RR) : List String :=
  answer.filterMap (fun rr => match rr with
    | RR.A a => some a
    | _ => none)

/-- The addresses of the `*dns.AAAA` records of an answer section. -/
def ipsAAAA (answer : List RR) : List String :=
  answer.filterMap (fun rr => match rr with
    | RR.AAAA a => some a
    | _ => none)

/-- The loop `for _, ans := range r.Answer` of lines 89-147, started with the
current values of `success` and `numNS` and the current content of `m`. -/
def nsLoop {σ : Type} (env : Env σ) (config : Config) (c : Client) :
    List RR → Bool → Nat → Msg → State σ → Step × List Sent × State σ
  | [], success, numNS, _, st => (Step.done success numNS, [], st)
  | RR.NS nameserver :: rest, success, numNS, m, st =>
    match localQuery env nameserver TypeA config.NSServer config.NSPort st with
    | (none, t1, st1) => (Step.ret (Outcome.panicked Panic.nilDereference), t1, st1)
    | (some (ra, err), t1, st1) =>
      match ra with
      | none =>
        (Step.ret (Outcome.returned (some
          ("Error getting the IPv4 address of " ++ nameserver ++ ": " ++ fmtS err ++ "\n"))),
          t1, st1)
      | some ra =>
        if err ≠ none then
          (Step.ret (Outcome.returned (some
            ("Error getting the IPv4 address of " ++ nameserver ++ ": " ++ fmtS err ++ "\n"))),
            t1, st1)
        else if ra.Rcode ≠ RcodeSuccess then
          (Step.ret (Outcome.returned (some
            ("Error getting the IPv4 address of " ++ nameserver ++ ": "
              ++ env.RcodeToString ra.Rcode ++ "\n"))), t1, st1)
        else
          match localQuery env nameserver TypeAAAA config.NSServer config.NSPort st1 with
          | (none, t2, st2) =>
            (Step.ret (Outcome.panicked Panic.nilDereference), t1 ++ t2, st2)
          | (some (raaaa, err), t2, st2) =>
            match raaaa with
            | none =>
              (Step.ret (Outcome.returned (some
                ("Error getting the IPv6 address of " ++ nameserver ++ ": " ++ fmtS err ++ "\n"))),
                t1 ++ t2, st2)
            | some raaaa =>
              if err ≠ none then
                (Step.ret (Outcome.returned (some
                  ("Error getting the IPv6 address of " ++ nameserver ++ ": " ++ fmtS err
                    ++ "\n"))), t1 ++ t2, st2)
              else if raaaa.Rcode ≠ RcodeSuccess then
                (Step.ret (Outcome.returned (some
                  ("Error getting the IPv6 address of " ++ nameserver ++ ": "
                    ++ env.RcodeToString raaaa.Rcode ++ "\n"))), t1 ++ t2, st2)
              else
                let ips := ipsA ra.Answer ++ ipsAAAA raaaa.Answer
                let s := soaLoop env config c ips m st2.world
                let st3 : State σ := { st2 with world := s.2.2.1 }
                let next := nsLoop env config c rest (if s.1 then true else success)
                  (numNS + 1) s.2.2.2 st3
                (next.1, t1 ++ (t2 ++ (s.2.1 ++ next.2.1)), next.2.2)
  | _ :: rest, success, numNS, m, st => nsLoop env config c rest success numNS m st

/-- The function `New`: the DNS health check for `config`.  The probe takes the
context and the state it starts in, and gives its outcome, the exchanges it
performed and the state it ends in. -/
def New {σ : Type} (env : Env σ) (config : Config) :
    Context → State σ → Outcome × List Sent × State σ :=
  let config : Config :=
    if config.RequestTimeout = 0 then { config with RequestTimeout := DefaultTimeout }
    else config
  fun _ st =>
    let st0 : State σ :=
      { world := st.world
        localm := some ⟨0, true, 0, [default], []⟩
        localc := some ⟨config.RequestTimeout⟩ }
    match localQuery env (env.Fqdn config.Domain) TypeNS config.NSServer config.NSPort st0 with
    | (none, t1, st1) => (Outcome.panicked Panic.nilDereference, t1, st1)
    | (some (r, err), t1, st1) =>
      match r with
      | none =>
        (Outcome.returned (some ("cannot retrieve the list of name servers for "
          ++ env.Fqdn config.Domain ++ ": " ++ fmtS err ++ "\n")), t1, st1)
      | some r =>
        if err ≠ none then
          (Outcome.returned (some ("cannot retrieve the list of name servers for "
            ++ env.Fqdn config.Domain ++ ": " ++ fmtS err ++ "\n")), t1, st1)
        else if r.Rcode = RcodeNameError then
          (Outcome.returned (some ("no such domain " ++ env.Fqdn config.Domain ++ "\n")),
            t1, st1)
        else
          let m : Msg := ⟨0, false, 0, [default], []⟩
          let c : Client := ⟨DefaultTimeout⟩
          match nsLoop env config c r.Answer false 0 m st1 with
          | (Step.ret out, t2, st2) => (out, t1 ++ t2, st2)
          | (Step.done success numNS, t2, st2) =>
            if numNS = 0 then
              -- dns.Fqdn(os.Args[1])
              match env.Args.get? 1 with
              | none =>
                (Outcome.panicked (Panic.indexOutOfRange 1 env.Args.length), t1 ++ t2, st2)
              | some arg =>
                (Outcome.returned (some ("No NS records for " ++ env.Quote (env.Fqdn arg)
                  ++ ". It is probably a CNAME to a domain but not a zone\n")), t1 ++ t2, st2)
            else if success = false then
              (Outcome.returned err, t1 ++ t2, st2)
            else
              (Outcome.returned none, t1 ++ t2, st2)

/-! ## Reading the exchanges of a run -/

/-- The exchange carries the single question of type `qtype` and class IN. -/
def Sent.asks (e : Sent) (qtype : Nat) : Bool :=
  match e.m.Question with
  | [q] => q.Qtype == qtype && q.Qclass == ClassINET
  | _ => false

/-- The exchange came back without a transport error and with a response whose
rcode is NOERROR. -/
def Sent.noerror (e : Sent) : Bool :=
  match e.err, e.r with
  | none, some r => r.Rcode == RcodeSuccess
  | _, _ => false

/-- The answer section that came back, empty when no response did. -/
def Sent.answer (e : Sent) : List RR :=
  match e.r with
  | some r => r.Answer
  | none => []

/-! ## Auxiliary definitions: the steps of a run -/

/-- The exchange `localQuery` performs when `localm` points to `lm` and `localc`
to `lc`. -/
def lookupSent {σ : Type} (env : Env σ) (lc : Client) (lm : Msg) (qname : String)
    (qtype : Nat) (address : String) (w : σ) : Sent :=
  let m : Msg :=
    { lm with Id := (env.Id w).1, RecursionDesired := true,
              Question := [⟨qname, qtype, ClassINET⟩] }
  let x := env.Exchange lc m address (env.Id w).2
  ⟨lc, m, address, x.1.1, x.1.2⟩

/-- The world after the exchange of `lookupSent`. -/
def lookupWorld {σ : Type} (env : Env σ) (lc : Client) (lm : Msg) (qname : String)
    (qtype : Nat) (address : String) (w : σ) : σ :=
  let m : Msg :=
    { lm with Id := (env.Id w).1, RecursionDesired := true,
              Question := [⟨qname, qtype, ClassINET⟩] }
  (env.Exchange lc m address (env.Id w).2).2

/-- What `localQuery` returns for what came back from the exchange. -/
def localResult (e : Sent) : Option Msg × error :=
  match e.err, e.r with
  | some s, _ => (none, some s)
  | none, none => (none, none)
  | none, some r =>
    if r.Rcode = RcodeNameError ∨ r.Rcode = RcodeSuccess then (some r, none)
    else (none, some "no name server to answer the question")

/-- The text the probe prints at the end of its error, for the `err` or the
rcode of a lookup through `localQuery` that did not come back with NOERROR
(for the NS lookup: nor with NXDOMAIN). -/
def lookupDetail {σ : Type} (env : Env σ) (e : Sent) : String :=
  match e.err, e.r with
  | some s, _ => s
  | none, none => "%!s(<nil>)"
  | none, some r =>
    if r.Rcode = RcodeNameError then env.RcodeToString r.Rcode
    else "no name server to answer the question"

/-- The exchange `e` is an address lookup for one of the NS records of
`answer`: made through `lc` with recursion desired, sent to `NSServer:NSPort`,
asking for the A or the AAAA records of the name server. -/
def AddressLookup (config : Config) (lc : Client) (answer : List RR) (e : Sent) : Prop :=
  e.c = lc ∧ e.m.RecursionDesired = true
    ∧ e.address = config.NSServer ++ ":" ++ config.NSPort
    ∧ ∃ ns, RR.NS ns ∈ answer
        ∧ (e.m.Question = [⟨ns, TypeA, ClassINET⟩] ∨ e.m.Question = [⟨ns, TypeAAAA, ClassINET⟩])

/-- The exchange `e` is an SOA query of the probe: made through `c` without
recursion desired, with the single question for the SOA of `Fqdn(config.FQDN)`,
and sent to port 53 of an address `ip` that an exchange `lk` of the trace `t`
brought back in an A record of its A lookup, or an AAAA record of its AAAA
lookup, of a name server `ns` of `answer`. -/
def SoaQuery {σ : Type} (env : Env σ) (config : Config) (c : Client) (answer : List RR)
    (t : List Sent) (e : Sent) : Prop :=
  e.c = c ∧ e.m.RecursionDesired = false
    ∧ e.m.Question = [⟨env.Fqdn config.FQDN, TypeSOA, ClassINET⟩]
    ∧ ∃ ip ns lk, e.address = nsAddressPort ip ∧ RR.NS ns ∈ answer ∧ lk ∈ t
        ∧ ((lk.m.Question = [⟨ns, TypeA, ClassINET⟩] ∧ RR.A ip ∈ lk.answer)
          ∨ (lk.m.Question = [⟨ns, TypeAAAA, ClassINET⟩] ∧ RR.AAAA ip ∈ lk.answer))

/-- The content of `localm` when the probe starts: lines 62-67. -/
def localm0 : Msg := ⟨0, true, 0, [default], []⟩

/-- The content of `m` when the loop over the NS records starts: lines 78-83. -/
def m0 : Msg := ⟨0, false, 0, [default], []⟩

/-- The NS lookup the probe starts with, for a non-zero `RequestTimeout`. -/
def firstSent {σ : Type} (env : Env σ) (config : Config) (w : σ) : Sent :=
  lookupSent env ⟨config.RequestTimeout⟩ localm0 (env.Fqdn config.Domain) TypeNS
    (config.NSServer ++ ":" ++ config.NSPort) w

/-- The state after the NS lookup the probe starts with. -/
def firstState {σ : Type} (env : Env σ) (config : Config) (w : σ) : State σ :=
  ⟨lookupWorld env ⟨config.RequestTimeout⟩ localm0 (env.Fqdn config.Domain) TypeNS
      (config.NSServer ++ ":" ++ config.NSPort) w,
    some (firstSent env config w).m, some ⟨config.RequestTimeout⟩⟩

/-- The end of the probe after the loop has run: lines 148-154, where the `err`
returned for `!success` is the nil `err` of the NS lookup. -/
def afterLoop {σ : Type} (env : Env σ) (e0 : Sent)
    (loop : Step × List Sent × State σ) : Outcome × List Sent × State σ :=
  match loop with
  | (Step.ret out, t2, st2) => (out, e0 :: t2, st2)
  | (Step.done _ numNS, t2, st2) =>
    if numNS = 0 then
      match env.Args.get? 1 with
      | none => (Outcome.panicked (Panic.indexOutOfRange 1 env.Args.length), e0 :: t2, st2)
      | some arg =>
        (Outcome.returned (some ("No NS records for " ++ env.Quote (env.Fqdn arg)
          ++ ". It is probably a CNAME to a domain but not a zone\n")), e0 :: t2, st2)
    else
      (Outcome.returned none, e0 :: t2, st2)

/-! ## Sample worlds -/

/-- A scripted world: the replies still to come.  Each exchange takes the next
one; when none is left, the exchange times out. -/
abbrev Script := List (Option Msg × error)

/-- The environment of a scripted world, for process arguments `args`.  Names
are written without their final dot and hold no character `%q` would escape,
and message ids are all 0. -/
def scripted (args : List String) : Env Script where
  Args := args
  Fqdn := fun s => s ++ "."
  Quote := fun s => "\"" ++ s ++ "\""
  RcodeToString := fun n => if n = 3 then "NXDOMAIN" else if n = 2 then "SERVFAIL" else ""
  Id := fun w => (0, w)
  Exchange := fun _ _ _ w =>
    match w with
    | [] => ((none, some "i/o timeout"), [])
    | x :: w => (x, w)

/-- A response with the given rcode and answer section, without error. -/
def reply (rcode : Nat) (answer : List RR) : Option Msg × error :=
  (some ⟨0, false, rcode, [], answer⟩, none)

/-- The state a first invocation starts in: `localm` and `localc` are nil. -/
def start (script : Script) : State Script := ⟨script, none, none⟩

/-- A configuration as in `TestNew`: no FQDN and no RequestTimeout. -/
def testConfig : Config := ⟨"", "example.org", "192.0.2.53", "53", 0⟩

/-- A live context, `context.Background()`. -/
def background : Context := ⟨none, none⟩

/-- A context that is already cancelled. -/
def canceled : Context := ⟨none, some "context canceled"⟩

/-- One name server with one address; its SOA exchange is not scripted and
times out. -/
def soaTimesOut : Script :=
  [reply 0 [RR.NS "ns1.example.org."], reply 0 [RR.A "192.0.2.1"], reply 0 []]

/-- Two name servers; the first has an A and an AAAA address, both of which
answer the SOA query, the second has no address. -/
def allAnswer : Script :=
  [reply 0 [RR.NS "ns1.example.org.", RR.other 46, RR.NS "ns2.example.org."],
    reply 0 [RR.A "192.0.2.1"], reply 0 [RR.AAAA "2001:db8::1"],
    reply 0 [RR.other 6], reply 0 [RR.other 6],
    reply 0 [], reply 0 []]

/-- The first name server answers the SOA query; the A lookup of the second
comes back with SERVFAIL. -/
def secondLookupFails : Script :=
  [reply 0 [RR.NS "ns1.example.org.", RR.NS "ns2.example.org."],
    reply 0 [RR.A "192.0.2.1"], reply 0 [],
    reply 0 [RR.other 6],
    reply 2 []]

/-- The NS lookup comes back with NOERROR and a CNAME record only. -/
def noNSRecord : Script := [reply 0 [RR.other 5]]

/-- The configured resolver `192.0.2.53:53` is itself the name server of the
domain. -/
def resolverIsNameServer : Script :=
  [reply 0 [RR.NS "ns1.example.org."], reply 0 [RR.A "192.0.2.53"], reply 0 [],
    reply 0 [RR.other 6]]

/-- The exchange of the world `secondLookupFails` that comes back with
SERVFAIL: the A lookup of the second name server. -/
def servfailLookup : Sent :=
  ⟨⟨DefaultTimeout⟩, ⟨0, true, 0, [⟨"ns2.example.org.", TypeA, ClassINET⟩], []⟩,
    "192.0.2.53:53", some ⟨0, false, 2, [], []⟩, none⟩

/-! ## Lemmas: `localQuery` with non-nil `localm` and `localc` -/

theorem localQuery_ready {σ : Type} (env : Env σ) (qname : String) (qtype : Nat)
    (nsserver nsport : String) (st : State σ) (lm : Msg) (lc : Client)
    (hm : st.localm = some lm) (hc : st.localc = some lc) :
    localQuery env qname qtype nsserver nsport st =
      (some (localResult (lookupSent env lc lm qname qtype (nsserver ++ ":" ++ nsport) st.world)),
        [lookupSent env lc lm qname qtype (nsserver ++ ":" ++ nsport) st.world],
        ⟨lookupWorld env lc lm qname qtype (nsserver ++ ":" ++ nsport) st.world,
          some (lookupSent env lc lm qname qtype (nsserver ++ ":" ++ nsport) st.world).m,
          some lc⟩) := by
  unfold localQuery
  simp only [hm, hc, lookupSent, lookupWorld, localResult]
  rcases env.Exchange lc _ (nsserver ++ ":" ++ nsport) (env.Id st.world).2 with ⟨⟨r, err⟩, w⟩
  cases err with
  | some s => simp
  | none =>
    cases r with
    | none => simp
    | some rr => by_cases h : rr.Rcode = RcodeNameError ∨ rr.Rcode = RcodeSuccess <;> simp [h]

/-! ## Lemmas: one round of the loop over the NS records -/

theorem nsLoop_skip {σ : Type} (env : Env σ) (config : Config) (c : Client) (rr : RR)
    (rest : List RR) (success : Bool) (numNS : Nat) (m : Msg) (st : State σ)
    (h : ∀ ns, rr ≠ RR.NS ns) :
    nsLoop env config c (rr :: rest) success numNS m st =
      nsLoop env config c rest success numNS m st := by
  cases rr with
  | NS ns => exact absurd rfl (h ns)
  | A a => simp [nsLoop]
  | AAAA a => simp [nsLoop]
  | other n => simp [nsLoop]

theorem localResult_of_noerror (e : Sent) (h : e.noerror = true) :
    ∃ r, e.r = some r ∧ r.Rcode = RcodeSuccess ∧ e.err = none ∧ localResult e = (some r, none) := by
  rcases e with ⟨c, m, a, r, err⟩
  cases err with
  | some s => simp [Sent.noerror] at h
  | none =>
    cases r with
    | none => simp [Sent.noerror] at h
    | some rr =>
      have h0 : rr.Rcode = RcodeSuccess := by simpa [Sent.noerror] using h
      exact ⟨rr, rfl, h0, rfl, by simp [localResult, h0]⟩

theorem nsLoop_NS_failA {σ : Type} (env : Env σ) (config : Config) (c : Client) (ns : String)
    (rest : List RR) (success : Bool) (numNS : Nat) (m : Msg) (st : State σ) (lm : Msg)
    (lc : Client) (hm : st.localm = some lm) (hc : st.localc = some lc) (e4 : Sent)
    (h4 : e4 = lookupSent env lc lm ns TypeA (config.NSServer ++ ":" ++ config.NSPort) st.world)
    (hf : e4.noerror = false) :
    nsLoop env config c (RR.NS ns :: rest) success numNS m st =
      (Step.ret (Outcome.returned (some
        ("Error getting the IPv4 address of " ++ ns ++ ": " ++ lookupDetail env e4 ++ "\n"))),
        [e4],
        ⟨lookupWorld env lc lm ns TypeA (config.NSServer ++ ":" ++ config.NSPort) st.world,
          some e4.m, some lc⟩) := by
  rw [nsLoop, localQuery_ready env ns TypeA config.NSServer config.NSPort st lm lc hm hc, ← h4]
  rcases e4 with ⟨c4, m4, a4, r4, err4⟩
  cases err4 with
  | some s => cases r4 <;> simp [localResult, lookupDetail, fmtS]
  | none =>
    cases r4 with
    | none => simp [localResult, lookupDetail, fmtS]
    | some rr =>
      have h0 : rr.Rcode ≠ RcodeSuccess := by simpa [Sent.noerror] using hf
      by_cases h3 : rr.Rcode = RcodeNameError
      · simp [localResult, lookupDetail, fmtS, h3, h0]
        simp [RcodeNameError, RcodeSuccess]
      · simp [localResult, lookupDetail, fmtS, h3, h0]

theorem nsLoop_NS_failAAAA {σ : Type} (env : Env σ) (config : Config) (c : Client)
    (ns : String) (rest : List RR) (success : Bool) (numNS : Nat) (m : Msg) (st : State σ)
    (lm : Msg) (lc : Client) (hm : st.localm = some lm) (hc : st.localc = some lc)
    (e4 e6 : Sent) (w4 : σ)
    (h4 : e4 = lookupSent env lc lm ns TypeA (config.NSServer ++ ":" ++ config.NSPort) st.world)
    (hw4 : w4 = lookupWorld env lc lm ns TypeA (config.NSServer ++ ":" ++ config.NSPort) st.world)
    (h6 : e6 = lookupSent env lc e4.m ns TypeAAAA (config.NSServer ++ ":" ++ config.NSPort) w4)
    (hok : e4.noerror = true) (hf : e6.noerror = false) :
    nsLoop env config c (RR.NS ns :: rest) success numNS m st =
      (Step.ret (Outcome.returned (some
        ("Error getting the IPv6 address of " ++ ns ++ ": " ++ lookupDetail env e6 ++ "\n"))),
        [e4, e6],
        ⟨lookupWorld env lc e4.m ns TypeAAAA (config.NSServer ++ ":" ++ config.NSPort) w4,
          some e6.m, some lc⟩) := by
  obtain ⟨r4, -, hr4, -, hres4⟩ := localResult_of_noerror e4 hok
  rw [nsLoop, localQuery_ready env ns TypeA config.NSServer config.NSPort st lm lc hm hc,
    ← h4, ← hw4, hres4]
  simp only [ne_eq, not_true_eq_false, if_false, hr4]
  rw [localQuery_ready env ns TypeAAAA config.NSServer config.NSPort _ e4.m lc rfl rfl, ← h6]
  rcases e6 with ⟨c6, m6, a6, r6, err6⟩
  cases err6 with
  | some s => cases r6 <;> simp [localResult, lookupDetail, fmtS]
  | none =>
    cases r6 with
    | none => simp [localResult, lookupDetail, fmtS]
    | some rr =>
      have h0 : rr.Rcode ≠ RcodeSuccess := by simpa [Sent.noerror] using hf
      by_cases h3 : rr.Rcode = RcodeNameError
      · simp [localResult, lookupDetail, fmtS, h3, h0]
        simp [RcodeNameError, RcodeSuccess]
      · simp [localResult, lookupDetail, fmtS, h3, h0]

theorem nsLoop_NS_ok {σ : Type} (env : Env σ) (config : Config) (c : Client)
    (ns : String) (rest : List RR) (success : Bool) (numNS : Nat) (m : Msg) (st : State σ)
    (lm : Msg) (lc : Client) (hm : st.localm = some lm) (hc : st.localc = some lc)
    (e4 e6 : Sent) (w4 w6 : σ)
    (h4 : e4 = lookupSent env lc lm ns TypeA (config.NSServer ++ ":" ++ config.NSPort) st.world)
    (hw4 : w4 = lookupWorld env lc lm ns TypeA (config.NSServer ++ ":" ++ config.NSPort) st.world)
    (h6 : e6 = lookupSent env lc e4.m ns TypeAAAA (config.NSServer ++ ":" ++ config.NSPort) w4)
    (hw6 : w6 = lookupWorld env lc e4.m ns TypeAAAA (config.NSServer ++ ":" ++ config.NSPort) w4)
    (hok4 : e4.noerror = true) (hok6 : e6.noerror = true) :
    nsLoop env config c (RR.NS ns :: rest) success numNS m st =
      ((nsLoop env config c rest
          ((soaLoop env config c (ipsA e4.answer ++ ipsAAAA e6.answer) m w6).1 || success)
          (numNS + 1) (soaLoop env config c (ipsA e4.answer ++ ipsAAAA e6.answer) m w6).2.2.2
          ⟨(soaLoop env config c (ipsA e4.answer ++ ipsAAAA e6.answer) m w6).2.2.1,
            some e6.m, some lc⟩).1,
        e4 :: e6 :: ((soaLoop env config c (ipsA e4.answer ++ ipsAAAA e6.answer) m w6).2.1
          ++ (nsLoop env config c rest
            ((soaLoop env config c (ipsA e4.answer ++ ipsAAAA e6.answer) m w6).1 || success)
            (numNS + 1) (soaLoop env config c (ipsA e4.answer ++ ipsAAAA e6.answer) m w6).2.2.2
            ⟨(soaLoop env config c (ipsA e4.answer ++ ipsAAAA e6.answer) m w6).2.2.1,
              some e6.m, some lc⟩).2.1),
        (nsLoop env config c rest
          ((soaLoop env config c (ipsA e4.answer ++ ipsAAAA e6.answer) m w6).1 || success)
          (numNS + 1) (soaLoop env config c (ipsA e4.answer ++ ipsAAAA e6.answer) m w6).2.2.2
          ⟨(soaLoop env config c (ipsA e4.answer ++ ipsAAAA e6.answer) m w6).2.2.1,
            some e6.m, some lc⟩).2.2) := by
  obtain ⟨r4, hr4e, hr4, -, hres4⟩ := localResult_of_noerror e4 hok4
  obtain ⟨r6, hr6e, hr6, -, hres6⟩ := localResult_of_noerror e6 hok6
  rw [nsLoop, localQuery_ready env ns TypeA config.NSServer config.NSPort st lm lc hm hc,
    ← h4, ← hw4, hres4]
  simp only [ne_eq, not_true_eq_false, if_false, hr4]
  rw [localQuery_ready env ns TypeAAAA config.NSServer config.NSPort _ e4.m lc rfl rfl,
    ← h6, ← hw6, hres6]
  simp only [ne_eq, not_true_eq_false, if_false, hr6]
  have ha4 : e4.answer = r4.Answer := by simp [Sent.answer, hr4e]
  have ha6 : e6.answer = r6.Answer := by simp [Sent.answer, hr6e]
  rw [ha4, ha6]
  cases hs : (soaLoop env config c (ipsA r4.Answer ++ ipsAAAA r6.Answer) m w6).1 <;> simp

/-! ## Lemmas: what the loops send -/

theorem mem_ipsA (ip : String) (answer : List RR) : ip ∈ ipsA answer ↔ RR.A ip ∈ answer := by
  unfold ipsA
  rw [List.mem_filterMap]
  constructor
  · rintro ⟨rr, hrr, h⟩
    cases rr <;> simp at h
    subst h
    exact hrr
  · intro h
    exact ⟨RR.A ip, h, rfl⟩

theorem mem_ipsAAAA (ip : String) (answer : List RR) :
    ip ∈ ipsAAAA answer ↔ RR.AAAA ip ∈ answer := by
  unfold ipsAAAA
  rw [List.mem_filterMap]
  constructor
  · rintro ⟨rr, hrr, h⟩
    cases rr <;> simp at h
    subst h
    exact hrr
  · intro h
    exact ⟨RR.AAAA ip, h, rfl⟩

/-- Every exchange of the loop over the addresses is made through `c`, without
recursion desired, asks for the SOA of `Fqdn(config.FQDN)`, and goes to the
address built from one of the `ips`; the message keeps its shape. -/
theorem soaLoop_sent {σ : Type} (env : Env σ) (config : Config) (c : Client)
    (ips : List String) (m : Msg) (w : σ)
    (hrd : m.RecursionDesired = false) (hlen : m.Question.length = 1) :
    (∀ e ∈ (soaLoop env config c ips m w).2.1,
      e.c = c ∧ e.m.RecursionDesired = false
        ∧ e.m.Question = [⟨env.Fqdn config.FQDN, TypeSOA, ClassINET⟩]
        ∧ ∃ ip ∈ ips, e.address = nsAddressPort ip)
    ∧ (soaLoop env config c ips m w).2.2.2.RecursionDesired = false
    ∧ (soaLoop env config c ips m w).2.2.2.Question.length = 1 := by
  induction ips generalizing m w with
  | nil => simp [soaLoop, hrd, hlen]
  | cons ip ips ih =>
    have hq : m.Question.set 0 ⟨env.Fqdn config.FQDN, TypeSOA, ClassINET⟩
        = [⟨env.Fqdn config.FQDN, TypeSOA, ClassINET⟩] := by
      rcases m with ⟨i, rd, rc, q, a⟩
      match q, hlen with
      | [x], _ => rfl
    have key := ih
      { m with Id := (env.Id w).1,
               Question := m.Question.set 0 ⟨env.Fqdn config.FQDN, TypeSOA, ClassINET⟩ }
      (env.Exchange c
        { m with Id := (env.Id w).1,
                 Question := m.Question.set 0 ⟨env.Fqdn config.FQDN, TypeSOA, ClassINET⟩ }
        (nsAddressPort ip) (env.Id w).2).2 hrd (by simp [hlen])
    rw [soaLoop]
    simp only []
    split
    · simp [hrd, hq]
    · split
      · simp [hrd, hq]
      · split
        · simp [hrd, hq]
        · split
          · simp [hrd, hq]
          · obtain ⟨k1, k2, k3⟩ := key
            refine ⟨?_, k2, k3⟩
            intro e he
            rcases List.mem_cons.1 he with h | h
            · subst h
              simp [hrd, hq]
            · obtain ⟨a, b, d, ip1, hip, hadr⟩ := k1 e h
              exact ⟨a, b, d, ip1, List.mem_cons_of_mem _ hip, hadr⟩

theorem AddressLookup_mono {config : Config} {lc : Client} {a b : List RR} {e : Sent}
    (h : AddressLookup config lc a e) (hab : ∀ x ∈ a, x ∈ b) : AddressLookup config lc b e := by
  obtain ⟨h1, h2, h3, ns, hns, hq⟩ := h
  exact ⟨h1, h2, h3, ns, hab _ hns, hq⟩

theorem SoaQuery_mono {σ : Type} {env : Env σ} {config : Config} {c : Client}
    {a b : List RR} {t u : List Sent} {e : Sent}
    (h : SoaQuery env config c a t e) (hab : ∀ x ∈ a, x ∈ b) (htu : ∀ x ∈ t, x ∈ u) :
    SoaQuery env config c b u e := by
  obtain ⟨h1, h2, h3, ip, ns, lk, hadr, hns, hlk, hq⟩ := h
  exact ⟨h1, h2, h3, ip, ns, lk, hadr, hab _ hns, htu _ hlk, hq⟩

/-- Every exchange of the loop over the NS records is an address lookup or an
SOA query. -/
theorem nsLoop_sent {σ : Type} (env : Env σ) (config : Config) (c : Client)
    (answer : List RR) (success : Bool) (numNS : Nat) (m : Msg) (st : State σ)
    (lm : Msg) (lc : Client) (hm : st.localm = some lm) (hc : st.localc = some lc)
    (hrd : m.RecursionDesired = false) (hlen : m.Question.length = 1) :
    ∀ e ∈ (nsLoop env config c answer success numNS m st).2.1,
      AddressLookup config lc answer e
        ∨ SoaQuery env config c answer (nsLoop env config c answer success numNS m st).2.1 e := by
  induction answer generalizing success numNS m st lm with
  | nil => simp [nsLoop]
  | cons rr rest ih =>
    by_cases hns : ∃ ns, rr = RR.NS ns
    · obtain ⟨ns, rfl⟩ := hns
      have q4 : (lookupSent env lc lm ns TypeA (config.NSServer ++ ":" ++ config.NSPort)
          st.world).m.Question = [⟨ns, TypeA, ClassINET⟩] := rfl
      have a4 : AddressLookup config lc (RR.NS ns :: rest)
          (lookupSent env lc lm ns TypeA (config.NSServer ++ ":" ++ config.NSPort) st.world) :=
        ⟨rfl, rfl, rfl, ns, List.mem_cons_self _ _, Or.inl rfl⟩
      cases h4 : (lookupSent env lc lm ns TypeA (config.NSServer ++ ":" ++ config.NSPort)
          st.world).noerror with
      | false =>
        rw [nsLoop_NS_failA env config c ns rest success numNS m st lm lc hm hc _ rfl h4]
        intro e he
        rw [List.mem_singleton.1 he]
        exact Or.inl a4
      | true =>
        have q6 : (lookupSent env lc
            (lookupSent env lc lm ns TypeA (config.NSServer ++ ":" ++ config.NSPort) st.world).m
            ns TypeAAAA (config.NSServer ++ ":" ++ config.NSPort)
            (lookupWorld env lc lm ns TypeA (config.NSServer ++ ":" ++ config.NSPort)
              st.world)).m.Question = [⟨ns, TypeAAAA, ClassINET⟩] := rfl
        have a6 : AddressLookup config lc (RR.NS ns :: rest)
            (lookupSent env lc
              (lookupSent env lc lm ns TypeA (config.NSServer ++ ":" ++ config.NSPort)
                st.world).m
              ns TypeAAAA (config.NSServer ++ ":" ++ config.NSPort)
              (lookupWorld env lc lm ns TypeA (config.NSServer ++ ":" ++ config.NSPort)
                st.world)) :=
          ⟨rfl, rfl, rfl, ns, List.mem_cons_self _ _, Or.inr rfl⟩
        cases h6 : (lookupSent env lc
            (lookupSent env lc lm ns TypeA (config.NSServer ++ ":" ++ config.NSPort) st.world).m
            ns TypeAAAA (config.NSServer ++ ":" ++ config.NSPort)
            (lookupWorld env lc lm ns TypeA (config.NSServer ++ ":" ++ config.NSPort)
              st.world)).noerror with
        | false =>
          rw [nsLoop_NS_failAAAA env config c ns rest success numNS m st lm lc hm hc _ _ _
            rfl rfl rfl h4 h6]
          intro e he
          rcases List.mem_cons.1 he with h | h
          · rw [h]
            exact Or.inl a4
          · rw [List.mem_singleton.1 h]
            exact Or.inl a6
        | true =>
          rw [nsLoop_NS_ok env config c ns rest success numNS m st lm lc hm hc _ _ _ _
            rfl rfl rfl rfl h4 h6]
          generalize lookupSent env lc lm ns TypeA (config.NSServer ++ ":" ++ config.NSPort)
            st.world = e4 at q4 a4 q6 a6 h4 h6 ⊢
          generalize lookupWorld env lc lm ns TypeA (config.NSServer ++ ":" ++ config.NSPort)
            st.world = w4 at q6 a6 h6 ⊢
          generalize lookupSent env lc e4.m ns TypeAAAA
            (config.NSServer ++ ":" ++ config.NSPort) w4 = e6 at q6 a6 h6 ⊢
          generalize lookupWorld env lc e4.m ns TypeAAAA
            (config.NSServer ++ ":" ++ config.NSPort) w4 = w6
          obtain ⟨s1, s2, s3⟩ := soaLoop_sent env config c
            (ipsA e4.answer ++ ipsAAAA e6.answer) m w6 hrd hlen
          have key := ih
            ((soaLoop env config c (ipsA e4.answer ++ ipsAAAA e6.answer) m w6).1 || success)
            (numNS + 1) (soaLoop env config c (ipsA e4.answer ++ ipsAAAA e6.answer) m w6).2.2.2
            ⟨(soaLoop env config c (ipsA e4.answer ++ ipsAAAA e6.answer) m w6).2.2.1,
              some e6.m, some lc⟩ e6.m rfl rfl s2 s3
          intro e he
          simp only [List.mem_cons, List.mem_append] at he
          rcases he with h | h | h | h
          · rw [h]
            exact Or.inl a4
          · rw [h]
            exact Or.inl a6
          · obtain ⟨b1, b2, b3, ip, hip, hadr⟩ := s1 e h
            refine Or.inr ⟨b1, b2, b3, ip, ns, ?_⟩
            rcases List.mem_append.1 hip with hi | hi
            · exact ⟨e4, hadr, List.mem_cons_self _ _, List.mem_cons_self _ _,
                Or.inl ⟨q4, (mem_ipsA ip _).1 hi⟩⟩
            · exact ⟨e6, hadr, List.mem_cons_self _ _,
                List.mem_cons_of_mem _ (List.mem_cons_self _ _),
                Or.inr ⟨q6, (mem_ipsAAAA ip _).1 hi⟩⟩
          · rcases key e h with k | k
            · exact Or.inl (AddressLookup_mono k (fun x hx => List.mem_cons_of_mem _ hx))
            · exact Or.inr (SoaQuery_mono k (fun x hx => List.mem_cons_of_mem _ hx)
                (fun x hx => by simp [hx]))
    · rw [nsLoop_skip env config c rr rest success numNS m st (fun ns h => hns ⟨ns, h⟩)]
      intro e he
      rcases ih success numNS m st lm hm hc hrd hlen e he with k | k
      · exact Or.inl (AddressLookup_mono k (fun x hx => List.mem_cons_of_mem _ hx))
      · exact Or.inr (SoaQuery_mono k (fun x hx => List.mem_cons_of_mem _ hx) (fun x hx => hx))

/-- An address lookup of the loop that does not come back with NOERROR ends the
loop with the error that names the name server asked about. -/
theorem nsLoop_lookup_failure {σ : Type} (env : Env σ) (config : Config) (c : Client)
    (answer : List RR) (success : Bool) (numNS : Nat) (m : Msg) (st : State σ)
    (lm : Msg) (lc : Client) (hm : st.localm = some lm) (hc : st.localc = some lc)
    (hrd : m.RecursionDesired = false) (hlen : m.Question.length = 1) :
    ∀ e ∈ (nsLoop env config c answer success numNS m st).2.1, e.noerror = false →
      (∀ ns, e.m.Question = [⟨ns, TypeA, ClassINET⟩] →
        (nsLoop env config c answer success numNS m st).1 =
          Step.ret (Outcome.returned (some
            ("Error getting the IPv4 address of " ++ ns ++ ": " ++ lookupDetail env e ++ "\n"))))
      ∧ (∀ ns, e.m.Question = [⟨ns, TypeAAAA, ClassINET⟩] →
        (nsLoop env config c answer success numNS m st).1 =
          Step.ret (Outcome.returned (some
            ("Error getting the IPv6 address of " ++ ns ++ ": " ++ lookupDetail env e ++ "\n")))) := by
  induction answer generalizing success numNS m st lm with
  | nil => simp [nsLoop]
  | cons rr rest ih =>
    by_cases hns : ∃ ns, rr = RR.NS ns
    · obtain ⟨ns, rfl⟩ := hns
      have q4 : (lookupSent env lc lm ns TypeA (config.NSServer ++ ":" ++ config.NSPort)
          st.world).m.Question = [⟨ns, TypeA, ClassINET⟩] := rfl
      cases h4 : (lookupSent env lc lm ns TypeA (config.NSServer ++ ":" ++ config.NSPort)
          st.world).noerror with
      | false =>
        rw [nsLoop_NS_failA env config c ns rest success numNS m st lm lc hm hc _ rfl h4]
        intro e he _
        rw [List.mem_singleton.1 he]
        constructor
        · intro ns1 hq
          rw [q4] at hq
          simp only [List.cons.injEq, Question.mk.injEq, and_true] at hq
          rw [hq]
        · intro ns1 hq
          rw [q4] at hq
          simp [TypeA, TypeAAAA] at hq
      | true =>
        have q6 : (lookupSent env lc
            (lookupSent env lc lm ns TypeA (config.NSServer ++ ":" ++ config.NSPort) st.world).m
            ns TypeAAAA (config.NSServer ++ ":" ++ config.NSPort)
            (lookupWorld env lc lm ns TypeA (config.NSServer ++ ":" ++ config.NSPort)
              st.world)).m.Question = [⟨ns, TypeAAAA, ClassINET⟩] := rfl
        cases h6 : (lookupSent env lc
            (lookupSent env lc lm ns TypeA (config.NSServer ++ ":" ++ config.NSPort) st.world).m
            ns TypeAAAA (config.NSServer ++ ":" ++ config.NSPort)
            (lookupWorld env lc lm ns TypeA (config.NSServer ++ ":" ++ config.NSPort)
              st.world)).noerror with
        | false =>
          rw [nsLoop_NS_failAAAA env config c ns rest success numNS m st lm lc hm hc _ _ _
            rfl rfl rfl h4 h6]
          intro e he hf
          rcases List.mem_cons.1 he with h | h
          · rw [h, h4] at hf
            exact absurd hf (by simp)
          · rw [List.mem_singleton.1 h]
            constructor
            · intro ns1 hq
              rw [q6] at hq
              simp [TypeA, TypeAAAA] at hq
            · intro ns1 hq
              rw [q6] at hq
              simp only [List.cons.injEq, Question.mk.injEq, and_true] at hq
              rw [hq]
        | true =>
          rw [nsLoop_NS_ok env config c ns rest success numNS m st lm lc hm hc _ _ _ _
            rfl rfl rfl rfl h4 h6]
          generalize lookupSent env lc lm ns TypeA (config.NSServer ++ ":" ++ config.NSPort)
            st.world = e4 at q4 q6 h4 h6 ⊢
          generalize lookupWorld env lc lm ns TypeA (config.NSServer ++ ":" ++ config.NSPort)
            st.world = w4 at q6 h6 ⊢
          generalize lookupSent env lc e4.m ns TypeAAAA
            (config.NSServer ++ ":" ++ config.NSPort) w4 = e6 at q6 h6 ⊢
          generalize lookupWorld env lc e4.m ns TypeAAAA
            (config.NSServer ++ ":" ++ config.NSPort) w4 = w6
          obtain ⟨s1, s2, s3⟩ := soaLoop_sent env config c
            (ipsA e4.answer ++ ipsAAAA e6.answer) m w6 hrd hlen
          have key := ih
            ((soaLoop env config c (ipsA e4.answer ++ ipsAAAA e6.answer) m w6).1 || success)
            (numNS + 1) (soaLoop env config c (ipsA e4.answer ++ ipsAAAA e6.answer) m w6).2.2.2
            ⟨(soaLoop env config c (ipsA e4.answer ++ ipsAAAA e6.answer) m w6).2.2.1,
              some e6.m, some lc⟩ e6.m rfl rfl s2 s3
          intro e he hf
          simp only [List.mem_cons, List.mem_append] at he
          rcases he with h | h | h | h
          · rw [h, h4] at hf
            exact absurd hf (by simp)
          · rw [h, h6] at hf
            exact absurd hf (by simp)
          · obtain ⟨-, -, b3, -⟩ := s1 e h
            constructor
            · intro ns1 hq
              rw [b3] at hq
              simp [TypeA, TypeSOA] at hq
            · intro ns1 hq
              rw [b3] at hq
              simp [TypeAAAA, TypeSOA] at hq
          · exact key e h hf
    · rw [nsLoop_skip env config c rr rest success numNS m st (fun ns h => hns ⟨ns, h⟩)]
      exact ih success numNS m st lm hm hc hrd hlen

/-- When every address lookup of the loop comes back with NOERROR, the loop runs
to its end, and it has counted every NS record it met. -/
theorem nsLoop_done {σ : Type} (env : Env σ) (config : Config) (c : Client)
    (answer : List RR) (success : Bool) (numNS : Nat) (m : Msg) (st : State σ)
    (lm : Msg) (lc : Client) (hm : st.localm = some lm) (hc : st.localc = some lc)
    (hok : ∀ e ∈ (nsLoop env config c answer success numNS m st).2.1,
      (e.asks TypeA || e.asks TypeAAAA) = true → e.noerror = true) :
    ∃ s n, (nsLoop env config c answer success numNS m st).1 = Step.done s n
      ∧ numNS ≤ n ∧ ((∃ ns, RR.NS ns ∈ answer) → numNS < n) := by
  induction answer generalizing success numNS m st lm with
  | nil => exact ⟨success, numNS, by simp [nsLoop], le_refl _, by simp⟩
  | cons rr rest ih =>
    by_cases hns : ∃ ns, rr = RR.NS ns
    · obtain ⟨ns, rfl⟩ := hns
      have q4 : (lookupSent env lc lm ns TypeA (config.NSServer ++ ":" ++ config.NSPort)
          st.world).asks TypeA = true := rfl
      have h4 : (lookupSent env lc lm ns TypeA (config.NSServer ++ ":" ++ config.NSPort)
          st.world).noerror = true := by
        cases h : (lookupSent env lc lm ns TypeA (config.NSServer ++ ":" ++ config.NSPort)
          st.world).noerror with
        | true => rfl
        | false =>
          rw [nsLoop_NS_failA env config c ns rest success numNS m st lm lc hm hc _ rfl h] at hok
          rw [← h]
          exact hok _ (List.mem_singleton.2 rfl) (by rw [q4]; rfl)
      have q6 : (lookupSent env lc
          (lookupSent env lc lm ns TypeA (config.NSServer ++ ":" ++ config.NSPort) st.world).m
          ns TypeAAAA (config.NSServer ++ ":" ++ config.NSPort)
          (lookupWorld env lc lm ns TypeA (config.NSServer ++ ":" ++ config.NSPort)
            st.world)).asks TypeAAAA = true := rfl
      have h6 : (lookupSent env lc
          (lookupSent env lc lm ns TypeA (config.NSServer ++ ":" ++ config.NSPort) st.world).m
          ns TypeAAAA (config.NSServer ++ ":" ++ config.NSPort)
          (lookupWorld env lc lm ns TypeA (config.NSServer ++ ":" ++ config.NSPort)
            st.world)).noerror = true := by
        cases h : (lookupSent env lc
          (lookupSent env lc lm ns TypeA (config.NSServer ++ ":" ++ config.NSPort) st.world).m
          ns TypeAAAA (config.NSServer ++ ":" ++ config.NSPort)
          (lookupWorld env lc lm ns TypeA (config.NSServer ++ ":" ++ config.NSPort)
            st.world)).noerror with
        | true => rfl
        | false =>
          rw [nsLoop_NS_failAAAA env config c ns rest success numNS m st lm lc hm hc _ _ _
            rfl rfl rfl h4 h] at hok
          rw [← h]
          exact hok _ (List.mem_cons_of_mem _ (List.mem_singleton.2 rfl))
            (by rw [q6]; simp)
      rw [nsLoop_NS_ok env config c ns rest success numNS m st lm lc hm hc _ _ _ _
        rfl rfl rfl rfl h4 h6] at hok ⊢
      generalize lookupSent env lc lm ns TypeA (config.NSServer ++ ":" ++ config.NSPort)
        st.world = e4 at hok ⊢
      generalize lookupWorld env lc lm ns TypeA (config.NSServer ++ ":" ++ config.NSPort)
        st.world = w4 at hok ⊢
      generalize lookupSent env lc e4.m ns TypeAAAA
        (config.NSServer ++ ":" ++ config.NSPort) w4 = e6 at hok ⊢
      generalize lookupWorld env lc e4.m ns TypeAAAA
        (config.NSServer ++ ":" ++ config.NSPort) w4 = w6 at hok ⊢
      obtain ⟨s, n, h1, h2, -⟩ := ih
        ((soaLoop env config c (ipsA e4.answer ++ ipsAAAA e6.answer) m w6).1 || success)
        (numNS + 1) (soaLoop env config c (ipsA e4.answer ++ ipsAAAA e6.answer) m w6).2.2.2
        ⟨(soaLoop env config c (ipsA e4.answer ++ ipsAAAA e6.answer) m w6).2.2.1,
          some e6.m, some lc⟩ e6.m rfl rfl
        (fun e he => hok e (by simp [he]))
      exact ⟨s, n, h1, by omega, fun _ => by omega⟩
    · rw [nsLoop_skip env config c rr rest success numNS m st (fun ns h => hns ⟨ns, h⟩)] at hok ⊢
      obtain ⟨s, n, h1, h2, h3⟩ := ih success numNS m st lm hm hc hok
      refine ⟨s, n, h1, h2, ?_⟩
      rintro ⟨ns, h⟩
      rcases List.mem_cons.1 h with h | h
      · exact absurd h.symm (fun h => hns ⟨ns, h⟩)
      · exact h3 ⟨ns, h⟩

/-- The loop over the NS records never panics when `localm` and `localc` are
not nil: the nil checks of `localQuery` are never reached with a nil pointer. -/
theorem nsLoop_no_panic {σ : Type} (env : Env σ) (config : Config) (c : Client)
    (answer : List RR) (success : Bool) (numNS : Nat) (m : Msg) (st : State σ)
    (lm : Msg) (lc : Client) (hm : st.localm = some lm) (hc : st.localc = some lc)
    (p : Panic) :
    (nsLoop env config c answer success numNS m st).1 ≠ Step.ret (Outcome.panicked p) := by
  induction answer generalizing success numNS m st lm with
  | nil => simp [nsLoop]
  | cons rr rest ih =>
    by_cases hns : ∃ ns, rr = RR.NS ns
    · obtain ⟨ns, rfl⟩ := hns
      cases h4 : (lookupSent env lc lm ns TypeA (config.NSServer ++ ":" ++ config.NSPort)
          st.world).noerror with
      | false =>
        rw [nsLoop_NS_failA env config c ns rest success numNS m st lm lc hm hc _ rfl h4]
        simp
      | true =>
        cases h6 : (lookupSent env lc
            (lookupSent env lc lm ns TypeA (config.NSServer ++ ":" ++ config.NSPort) st.world).m
            ns TypeAAAA (config.NSServer ++ ":" ++ config.NSPort)
            (lookupWorld env lc lm ns TypeA (config.NSServer ++ ":" ++ config.NSPort)
              st.world)).noerror with
        | false =>
          rw [nsLoop_NS_failAAAA env config c ns rest success numNS m st lm lc hm hc _ _ _
            rfl rfl rfl h4 h6]
          simp
        | true =>
          rw [nsLoop_NS_ok env config c ns rest success numNS m st lm lc hm hc _ _ _ _
            rfl rfl rfl rfl h4 h6]
          exact ih _ _ _ _ _ rfl rfl
    · rw [nsLoop_skip env config c rr rest success numNS m st (fun ns h => hns ⟨ns, h⟩)]
      exact ih success numNS m st lm hm hc

/-- When the loop over the NS records runs to its end, it has counted every NS
record of the answer section. -/
theorem nsLoop_counts {σ : Type} (env : Env σ) (config : Config) (c : Client)
    (answer : List RR) (success : Bool) (numNS : Nat) (m : Msg) (st : State σ)
    (lm : Msg) (lc : Client) (hm : st.localm = some lm) (hc : st.localc = some lc)
    (s : Bool) (n : Nat)
    (h : (nsLoop env config c answer success numNS m st).1 = Step.done s n) :
    numNS ≤ n ∧ ((∃ ns, RR.NS ns ∈ answer) → numNS < n) := by
  induction answer generalizing success numNS m st lm with
  | nil =>
    simp only [nsLoop, Step.done.injEq] at h
    exact ⟨by omega, by simp⟩
  | cons rr rest ih =>
    by_cases hns : ∃ ns, rr = RR.NS ns
    · obtain ⟨ns, rfl⟩ := hns
      cases h4 : (lookupSent env lc lm ns TypeA (config.NSServer ++ ":" ++ config.NSPort)
          st.world).noerror with
      | false =>
        rw [nsLoop_NS_failA env config c ns rest success numNS m st lm lc hm hc _ rfl h4] at h
        simp at h
      | true =>
        cases h6 : (lookupSent env lc
            (lookupSent env lc lm ns TypeA (config.NSServer ++ ":" ++ config.NSPort) st.world).m
            ns TypeAAAA (config.NSServer ++ ":" ++ config.NSPort)
            (lookupWorld env lc lm ns TypeA (config.NSServer ++ ":" ++ config.NSPort)
              st.world)).noerror with
        | false =>
          rw [nsLoop_NS_failAAAA env config c ns rest success numNS m st lm lc hm hc _ _ _
            rfl rfl rfl h4 h6] at h
          simp at h
        | true =>
          rw [nsLoop_NS_ok env config c ns rest success numNS m st lm lc hm hc _ _ _ _
            rfl rfl rfl rfl h4 h6] at h
          have key := (ih _ _ _ _ _ rfl rfl h).1
          exact ⟨by omega, fun _ => by omega⟩
    · rw [nsLoop_skip env config c rr rest success numNS m st (fun ns h => hns ⟨ns, h⟩)] at h
      obtain ⟨k1, k2⟩ := ih success numNS m st lm hm hc h
      refine ⟨k1, ?_⟩
      rintro ⟨ns, hmem⟩
      rcases List.mem_cons.1 hmem with h1 | h1
      · exact absurd h1.symm (fun h2 => hns ⟨ns, h2⟩)
      · exact k2 ⟨ns, h1⟩

/-! ## Lemmas: the probe, by the result of its NS lookup -/

theorem New_default {σ : Type} (env : Env σ) (config : Config)
    (h : config.RequestTimeout = 0) :
    New env config = New env { config with RequestTimeout := DefaultTimeout } := by
  unfold New
  simp [h, DefaultTimeout]

theorem New_not_answered {σ : Type} (env : Env σ) (config : Config) (ctx : Context)
    (st : State σ) (hrt : config.RequestTimeout ≠ 0)
    (hf : (firstSent env config st.world).noerror = false)
    (h3 : ∀ r, (firstSent env config st.world).err = none →
      (firstSent env config st.world).r = some r → r.Rcode ≠ RcodeNameError) :
    New env config ctx st =
      (Outcome.returned (some ("cannot retrieve the list of name servers for "
        ++ env.Fqdn config.Domain ++ ": " ++ lookupDetail env (firstSent env config st.world)
        ++ "\n")), [firstSent env config st.world], firstState env config st.world) := by
  unfold New
  simp only [hrt, if_false]
  rw [localQuery_ready env _ TypeNS config.NSServer config.NSPort _ localm0
    ⟨config.RequestTimeout⟩ rfl rfl]
  have hfs : lookupSent env ⟨config.RequestTimeout⟩ localm0 (env.Fqdn config.Domain) TypeNS
      (config.NSServer ++ ":" ++ config.NSPort) st.world = firstSent env config st.world := rfl
  unfold firstState
  rw [hfs]
  revert hf h3
  generalize firstSent env config st.world = e0
  intro hf h3
  rcases e0 with ⟨c0, q0, a0, r0, err0⟩
  cases err0 with
  | some s => cases r0 <;> simp [localResult, lookupDetail, fmtS]
  | none =>
    cases r0 with
    | none => simp [localResult, lookupDetail, fmtS]
    | some rr =>
      have h0 : rr.Rcode ≠ RcodeSuccess := by simpa [Sent.noerror] using hf
      have h1 : rr.Rcode ≠ RcodeNameError := h3 rr rfl rfl
      simp [localResult, lookupDetail, fmtS, h0, h1]

theorem New_nxdomain {σ : Type} (env : Env σ) (config : Config) (ctx : Context)
    (st : State σ) (hrt : config.RequestTimeout ≠ 0) (r : Msg)
    (herr : (firstSent env config st.world).err = none)
    (hr : (firstSent env config st.world).r = some r) (h3 : r.Rcode = RcodeNameError) :
    New env config ctx st =
      (Outcome.returned (some ("no such domain " ++ env.Fqdn config.Domain ++ "\n")),
        [firstSent env config st.world], firstState env config st.world) := by
  unfold New
  simp only [hrt, if_false]
  rw [localQuery_ready env _ TypeNS config.NSServer config.NSPort _ localm0
    ⟨config.RequestTimeout⟩ rfl rfl]
  have hfs : lookupSent env ⟨config.RequestTimeout⟩ localm0 (env.Fqdn config.Domain) TypeNS
      (config.NSServer ++ ":" ++ config.NSPort) st.world = firstSent env config st.world := rfl
  unfold firstState
  rw [hfs]
  revert herr hr
  generalize firstSent env config st.world = e0
  intro herr hr
  rcases e0 with ⟨c0, q0, a0, r0, err0⟩
  simp only at herr hr
  subst herr hr
  simp [localResult, h3]

theorem New_answered {σ : Type} (env : Env σ) (config : Config) (ctx : Context)
    (st : State σ) (hrt : config.RequestTimeout ≠ 0)
    (hok : (firstSent env config st.world).noerror = true) :
    New env config ctx st =
      afterLoop env (firstSent env config st.world)
        (nsLoop env config ⟨DefaultTimeout⟩ (firstSent env config st.world).answer false 0 m0
          (firstState env config st.world)) := by
  obtain ⟨r, hr, hr0, herr, hres⟩ := localResult_of_noerror _ hok
  have hans : (firstSent env config st.world).answer = r.Answer := by simp [Sent.answer, hr]
  rw [hans]
  unfold New
  simp only [hrt, if_false]
  rw [localQuery_ready env _ TypeNS config.NSServer config.NSPort _ localm0
    ⟨config.RequestTimeout⟩ rfl rfl]
  have hfs : lookupSent env ⟨config.RequestTimeout⟩ localm0 (env.Fqdn config.Domain) TypeNS
      (config.NSServer ++ ":" ++ config.NSPort) st.world = firstSent env config st.world := rfl
  rw [hfs, hres]
  have h3 : r.Rcode ≠ RcodeNameError := by rw [hr0]; decide
  simp only [ne_eq, not_true_eq_false, if_false, h3]
  unfold firstState afterLoop m0
  rcases nsLoop env config ⟨DefaultTimeout⟩ r.Answer false 0 ⟨0, false, 0, [default], []⟩
    ⟨lookupWorld env ⟨config.RequestTimeout⟩ localm0 (env.Fqdn config.Domain) TypeNS
      (config.NSServer ++ ":" ++ config.NSPort) st.world,
      some (firstSent env config st.world).m, some ⟨config.RequestTimeout⟩⟩ with ⟨step, t2, st2⟩
  cases step with
  | ret out => simp
  | done success numNS =>
    by_cases hn : numNS = 0
    · simp only [hn, if_true]
      cases env.Args.get? 1 <;> simp
    · cases success <;> simp [hn]

theorem afterLoop_sent {σ : Type} (env : Env σ) (e0 : Sent)
    (loop : Step × List Sent × State σ) :
    (afterLoop env e0 loop).2.1 = e0 :: loop.2.1 := by
  rcases loop with ⟨step, t2, st2⟩
  cases step with
  | ret out => rfl
  | done success numNS =>
    unfold afterLoop
    by_cases hn : numNS = 0
    · simp only [hn, if_true]
      cases env.Args.get? 1 <;> rfl
    · simp [hn]

theorem afterLoop_ret {σ : Type} (env : Env σ) (e0 : Sent)
    (loop : Step × List Sent × State σ) (out : Outcome) (h : loop.1 = Step.ret out) :
    (afterLoop env e0 loop).1 = out := by
  rcases loop with ⟨step, t2, st2⟩
  simp only at h
  subst h
  rfl

theorem afterLoop_done {σ : Type} (env : Env σ) (e0 : Sent)
    (loop : Step × List Sent × State σ) (success : Bool) (numNS : Nat)
    (h : loop.1 = Step.done success numNS) (hn : 0 < numNS) :
    (afterLoop env e0 loop).1 = Outcome.returned none := by
  rcases loop with ⟨step, t2, st2⟩
  simp only at h
  subst h
  have h0 : numNS ≠ 0 := by omega
  simp [afterLoop, h0]

/-- The exchanges of a run, for a non-zero `RequestTimeout`: the NS lookup, and
then only address lookups for the NS records it brought back and SOA queries
to the addresses they brought back. -/
theorem New_trace {σ : Type} (env : Env σ) (config : Config) (ctx : Context)
    (st : State σ) (hrt : config.RequestTimeout ≠ 0) :
    ∃ rest, (New env config ctx st).2.1 = firstSent env config st.world :: rest
      ∧ ∀ e ∈ rest,
        AddressLookup config ⟨config.RequestTimeout⟩ (firstSent env config st.world).answer e
          ∨ SoaQuery env config ⟨DefaultTimeout⟩ (firstSent env config st.world).answer rest e := by
  cases hok : (firstSent env config st.world).noerror with
  | true =>
    rw [New_answered env config ctx st hrt hok, afterLoop_sent]
    exact ⟨_, rfl, nsLoop_sent env config ⟨DefaultTimeout⟩ _ false 0 m0
      (firstState env config st.world) _ ⟨config.RequestTimeout⟩ rfl rfl rfl rfl⟩
  | false =>
    by_cases h3 : ∀ r, (firstSent env config st.world).err = none →
        (firstSent env config st.world).r = some r → r.Rcode ≠ RcodeNameError
    · rw [New_not_answered env config ctx st hrt hok h3]
      exact ⟨[], rfl, by simp⟩
    · push_neg at h3
      obtain ⟨r, herr, hr, hrc⟩ := h3
      rw [New_nxdomain env config ctx st hrt r herr hr hrc]
      exact ⟨[], rfl, by simp⟩

theorem AddressLookup_asks {config : Config} {lc : Client} {a : List RR} {e : Sent}
    (h : AddressLookup config lc a e) :
    (e.asks TypeA || e.asks TypeAAAA) = true ∧ e.asks TypeNS = false ∧ e.asks TypeSOA = false := by
  obtain ⟨-, -, -, ns, -, hq | hq⟩ := h <;> simp [Sent.asks, hq] <;> decide

theorem SoaQuery_asks {σ : Type} {env : Env σ} {config : Config} {c : Client}
    {a : List RR} {t : List Sent} {e : Sent} (h : SoaQuery env config c a t e) :
    e.asks TypeSOA = true ∧ e.asks TypeNS = false ∧ e.asks TypeA = false
      ∧ e.asks TypeAAAA = false := by
  obtain ⟨-, -, hq, -⟩ := h
  simp [Sent.asks, hq]
  decide

theorem DefaultTimeout_ne_zero : DefaultTimeout ≠ 0 := by decide

theorem nil_when_lookups_succeed {σ : Type} (env : Env σ) (config : Config) (ctx : Context)
    (st : State σ) (hrt : config.RequestTimeout ≠ 0)
    (hNS : ∃ e ∈ (New env config ctx st).2.1,
      e.asks TypeNS = true ∧ e.noerror = true ∧ ∃ ns, RR.NS ns ∈ e.answer)
    (hAddr : ∀ e ∈ (New env config ctx st).2.1,
      (e.asks TypeA || e.asks TypeAAAA) = true → e.noerror = true) :
    (New env config ctx st).1 = Outcome.returned none := by
  obtain ⟨rest, htr, hcls⟩ := New_trace env config ctx st hrt
  obtain ⟨e, he, hq, hok, hns⟩ := hNS
  have he0 : e = firstSent env config st.world := by
    rw [htr] at he
    rcases List.mem_cons.1 he with h | h
    · exact h
    · rcases hcls e h with k | k
      · rw [(AddressLookup_asks k).2.1] at hq
        exact absurd hq (by simp)
      · rw [(SoaQuery_asks k).2.1] at hq
        exact absurd hq (by simp)
  subst he0
  rw [New_answered env config ctx st hrt hok] at hAddr ⊢
  rw [afterLoop_sent] at hAddr
  obtain ⟨s, n, h1, -, h3⟩ := nsLoop_done env config ⟨DefaultTimeout⟩ _ false 0 m0
    (firstState env config st.world) _ ⟨config.RequestTimeout⟩ rfl rfl
    (fun e he => hAddr e (List.mem_cons_of_mem _ he))
  exact afterLoop_done env _ _ s n h1 (h3 hns)

theorem failed_lookup_is_reported {σ : Type} (env : Env σ) (config : Config) (ctx : Context)
    (st : State σ) (hrt : config.RequestTimeout ≠ 0) (e : Sent) (ns : String)
    (he : e ∈ (New env config ctx st).2.1) (hf : e.noerror = false) :
    (e.m.Question = [⟨ns, TypeA, ClassINET⟩] →
      (New env config ctx st).1 = Outcome.returned (some
        ("Error getting the IPv4 address of " ++ ns ++ ": " ++ lookupDetail env e ++ "\n")))
    ∧ (e.m.Question = [⟨ns, TypeAAAA, ClassINET⟩] →
      (New env config ctx st).1 = Outcome.returned (some
        ("Error getting the IPv6 address of " ++ ns ++ ": " ++ lookupDetail env e ++ "\n"))) := by
  have q0 : (firstSent env config st.world).m.Question
      = [⟨env.Fqdn config.Domain, TypeNS, ClassINET⟩] := rfl
  cases hok : (firstSent env config st.world).noerror with
  | true =>
    rw [New_answered env config ctx st hrt hok] at he ⊢
    rw [afterLoop_sent] at he
    rcases List.mem_cons.1 he with h | h
    · rw [h, hok] at hf
      exact absurd hf (by simp)
    · obtain ⟨k1, k2⟩ := nsLoop_lookup_failure env config ⟨DefaultTimeout⟩ _ false 0 m0
        (firstState env config st.world) _ ⟨config.RequestTimeout⟩ rfl rfl rfl rfl e h hf
      exact ⟨fun hq => afterLoop_ret env _ _ _ (k1 ns hq),
        fun hq => afterLoop_ret env _ _ _ (k2 ns hq)⟩
  | false =>
    have h1 : e = firstSent env config st.world := by
      obtain ⟨rest, htr, -⟩ := New_trace env config ctx st hrt
      by_cases h3 : ∀ r, (firstSent env config st.world).err = none →
          (firstSent env config st.world).r = some r → r.Rcode ≠ RcodeNameError
      · rw [New_not_answered env config ctx st hrt hok h3] at he
        exact List.mem_singleton.1 he
      · push_neg at h3
        obtain ⟨r, herr, hr, hrc⟩ := h3
        rw [New_nxdomain env config ctx st hrt r herr hr hrc] at he
        exact List.mem_singleton.1 he
    constructor
    · intro hq
      rw [h1, q0] at hq
      simp [TypeNS, TypeA] at hq
    · intro hq
      rw [h1, q0] at hq
      simp [TypeNS, TypeAAAA] at hq

theorem containsAt_singleton (c : Char) (l : List Char) : containsAt l [c] = l.contains c := by
  induction l with
  | nil => rfl
  | cons x xs ih =>
    rw [containsAt, ih, List.contains_cons]
    simp [List.isPrefixOf]

theorem ContainsAny_colon (ip : String) : ContainsAny ":" ip = ip.toList.contains ':' := by
  simp [ContainsAny]

theorem Contains_colon (ip : String) : Contains ip ":" = ip.toList.contains ':' := by
  unfold Contains
  exact containsAt_singleton ':' ip.toList

theorem noerror_false_of (e : Sent)
    (h : e.err ≠ none ∨ e.r = none
      ∨ ∃ r, e.r = some r ∧ r.Rcode ≠ RcodeSuccess ∧ r.Rcode ≠ RcodeNameError) :
    e.noerror = false
      ∧ ∀ r, e.err = none → e.r = some r → r.Rcode ≠ RcodeNameError := by
  rcases e with ⟨c, m, a, r, err⟩
  rcases h with h | h | ⟨r1, h1, h2, h3⟩
  · cases err with
    | none => exact absurd rfl h
    | some s => simp [Sent.noerror]
  · simp only at h
    subst h
    cases err <;> simp [Sent.noerror]
  · simp only at h1
    subst h1
    cases err with
    | none => simp [Sent.noerror, h2, h3]
    | some s => simp [Sent.noerror]

theorem first_exchange_core {σ : Type} (env : Env σ) (config : Config) (ctx : Context)
    (st : State σ) (hrt : config.RequestTimeout ≠ 0) :
    ∃ e rest, (New env config ctx st).2.1 = e :: rest
      ∧ e.m.RecursionDesired = true
      ∧ e.m.Question = [⟨env.Fqdn config.Domain, TypeNS, ClassINET⟩]
      ∧ e.address = config.NSServer ++ ":" ++ config.NSPort
      ∧ ((e.err ≠ none ∨ e.r = none
            ∨ ∃ r, e.r = some r ∧ r.Rcode ≠ RcodeSuccess ∧ r.Rcode ≠ RcodeNameError) →
          rest = [] ∧ (New env config ctx st).1 = Outcome.returned (some
            ("cannot retrieve the list of name servers for " ++ env.Fqdn config.Domain ++ ": "
              ++ lookupDetail env e ++ "\n")))
      ∧ ((e.err = none ∧ ∃ r, e.r = some r ∧ r.Rcode = RcodeNameError) →
          rest = [] ∧ (New env config ctx st).1 = Outcome.returned (some
            ("no such domain " ++ env.Fqdn config.Domain ++ "\n"))) := by
  obtain ⟨rest, htr, -⟩ := New_trace env config ctx st hrt
  refine ⟨firstSent env config st.world, rest, htr, rfl, rfl, rfl, ?_, ?_⟩
  · intro h
    obtain ⟨hf, h3⟩ := noerror_false_of _ h
    rw [New_not_answered env config ctx st hrt hf h3] at htr ⊢
    simp only [List.cons.injEq, true_and] at htr
    exact ⟨htr.symm, rfl⟩
  · rintro ⟨herr, r, hr, hrc⟩
    rw [New_nxdomain env config ctx st hrt r herr hr hrc] at htr ⊢
    simp only [List.cons.injEq, true_and] at htr
    exact ⟨htr.symm, rfl⟩

theorem exchanges_core {σ : Type} (env : Env σ) (config : Config) (ctx : Context)
    (st : State σ) (hrt : config.RequestTimeout ≠ 0) :
    ∃ e0 rest, (New env config ctx st).2.1 = e0 :: rest
      ∧ e0.m.RecursionDesired = true
      ∧ e0.m.Question = [⟨env.Fqdn config.Domain, TypeNS, ClassINET⟩]
      ∧ e0.address = config.NSServer ++ ":" ++ config.NSPort
      ∧ ∀ e ∈ rest,
        AddressLookup config ⟨config.RequestTimeout⟩ e0.answer e
          ∨ SoaQuery env config ⟨DefaultTimeout⟩ e0.answer rest e := by
  obtain ⟨rest, htr, hcls⟩ := New_trace env config ctx st hrt
  exact ⟨firstSent env config st.world, rest, htr, rfl, rfl, rfl, hcls⟩

theorem panic_core {σ : Type} (env : Env σ) (config : Config) (ctx : Context)
    (st : State σ) (hrt : config.RequestTimeout ≠ 0) (p : Panic)
    (h : (New env config ctx st).1 = Outcome.panicked p) :
    p = Panic.indexOutOfRange 1 env.Args.length ∧ env.Args.length ≤ 1
      ∧ (firstSent env config st.world).noerror = true
      ∧ ∀ ns, RR.NS ns ∉ (firstSent env config st.world).answer := by
  cases hok : (firstSent env config st.world).noerror with
  | false =>
    by_cases h3 : ∀ r, (firstSent env config st.world).err = none →
        (firstSent env config st.world).r = some r → r.Rcode ≠ RcodeNameError
    · rw [New_not_answered env config ctx st hrt hok h3] at h
      simp at h
    · push_neg at h3
      obtain ⟨r, herr, hr, hrc⟩ := h3
      rw [New_nxdomain env config ctx st hrt r herr hr hrc] at h
      simp at h
  | true =>
    rw [New_answered env config ctx st hrt hok] at h
    have hnp := nsLoop_no_panic env config ⟨DefaultTimeout⟩
      (firstSent env config st.world).answer false 0 m0 (firstState env config st.world)
      _ ⟨config.RequestTimeout⟩ rfl rfl
    have hcount := nsLoop_counts env config ⟨DefaultTimeout⟩
      (firstSent env config st.world).answer false 0 m0 (firstState env config st.world)
      _ ⟨config.RequestTimeout⟩ rfl rfl
    revert h hnp hcount
    rcases nsLoop env config ⟨DefaultTimeout⟩ (firstSent env config st.world).answer false 0 m0
      (firstState env config st.world) with ⟨step, t2, st2⟩
    intro h hnp hcount
    cases step with
    | ret out =>
      simp only [afterLoop] at h
      subst h
      exact absurd rfl (hnp p)
    | done success numNS =>
      unfold afterLoop at h
      by_cases hn : numNS = 0
      · simp only [hn, if_true] at h
        cases hargs : env.Args.get? 1 with
        | some arg =>
          rw [hargs] at h
          simp at h
        | none =>
          rw [hargs] at h
          simp only [Outcome.panicked.injEq] at h
          refine ⟨h.symm, List.get?_eq_none.1 hargs, rfl, ?_⟩
          intro ns hmem
          have := (hcount success numNS rfl).2 ⟨ns, hmem⟩
          omega
      · simp [hn] at h

/-- The probe panics only at `os.Args[1]`: when it does, `os.Args` has at most
one element and the NS response, which came back with NOERROR, holds no NS
record.  No nil pointer is dereferenced, whatever `localm` and `localc` held
before. -/
theorem New_panics_only_at_Args {σ : Type} (env : Env σ) (config : Config) (ctx : Context)
    (st : State σ) (p : Panic) (h : (New env config ctx st).1 = Outcome.panicked p) :
    p = Panic.indexOutOfRange 1 env.Args.length ∧ env.Args.length ≤ 1
      ∧ ∃ e rest, (New env config ctx st).2.1 = e :: rest ∧ e.noerror = true
        ∧ ∀ ns, RR.NS ns ∉ e.answer := by
  by_cases hrt : config.RequestTimeout = 0
  · rw [New_default env config hrt] at h ⊢
    obtain ⟨h1, h2, h3, h4⟩ := panic_core env _ ctx st DefaultTimeout_ne_zero p h
    obtain ⟨rest, htr, -⟩ := New_trace env { config with RequestTimeout := DefaultTimeout }
      ctx st DefaultTimeout_ne_zero
    exact ⟨h1, h2, _, rest, htr, h3, h4⟩
  · obtain ⟨h1, h2, h3, h4⟩ := panic_core env config ctx st hrt p h
    obtain ⟨rest, htr, -⟩ := New_trace env config ctx st hrt
    exact ⟨h1, h2, _, rest, htr, h3, h4⟩

/-! ## The claims -/

/-- C1, evaluated on the code: in the world `soaTimesOut` the NS lookup brings
back one NS record, its A and AAAA lookups come back with NOERROR, and the only
SOA exchange times out, yet the probe returns nil: the `err` of `return err`
is the nil error of the NS lookup. -/
theorem New_no_soa_answer_returns_nil :
    (∃ e ∈ (New (scripted ["health"]) testConfig background (start soaTimesOut)).2.1,
        e.asks TypeNS = true ∧ e.noerror = true ∧ RR.NS "ns1.example.org." ∈ e.answer)
      ∧ (∀ e ∈ (New (scripted ["health"]) testConfig background (start soaTimesOut)).2.1,
        (e.asks TypeA || e.asks TypeAAAA) = true → e.noerror = true)
      ∧ (∃ e ∈ (New (scripted ["health"]) testConfig background (start soaTimesOut)).2.1,
        e.asks TypeSOA = true)
      ∧ (∀ e ∈ (New (scripted ["health"]) testConfig background (start soaTimesOut)).2.1,
        e.asks TypeSOA = true → e.err = some "i/o timeout" ∧ e.r = none)
      ∧ (New (scripted ["health"]) testConfig background (start soaTimesOut)).1
        = Outcome.returned none := by
  decide

/-- C2: when the NS lookup comes back with NOERROR and at least one NS record,
every A and AAAA lookup of the run comes back with NOERROR, and some SOA
exchange comes back with NOERROR and a non-empty answer section, the probe
returns nil, whatever the configuration (an empty FQDN included). -/
theorem New_returns_nil {σ : Type} (env : Env σ) (config : Config) (ctx : Context)
    (st : State σ)
    (hNS : ∃ e ∈ (New env config ctx st).2.1,
      e.asks TypeNS = true ∧ e.noerror = true ∧ ∃ ns, RR.NS ns ∈ e.answer)
    (hAddr : ∀ e ∈ (New env config ctx st).2.1,
      (e.asks TypeA || e.asks TypeAAAA) = true → e.noerror = true)
    (_hSOA : ∃ e ∈ (New env config ctx st).2.1,
      e.asks TypeSOA = true ∧ e.noerror = true ∧ e.answer ≠ []) :
    (New env config ctx st).1 = Outcome.returned none := by
  by_cases hrt : config.RequestTimeout = 0
  · rw [New_default env config hrt] at hNS hAddr ⊢
    exact nil_when_lookups_succeed env _ ctx st DefaultTimeout_ne_zero hNS hAddr
  · exact nil_when_lookups_succeed env config ctx st hrt hNS hAddr

theorem New_returns_nil_witness :
    (New (scripted ["health"]) testConfig background (start allAnswer)).1
      = Outcome.returned none :=
  New_returns_nil (scripted ["health"]) testConfig background (start allAnswer)
    ⟨firstSent (scripted ["health"]) { testConfig with RequestTimeout := DefaultTimeout }
        allAnswer,
      by decide, by decide, by decide, "ns1.example.org.", by decide⟩
    (by decide)
    (by decide)

/-- C3, evaluated on the code: in the world `noNSRecord` the NS lookup comes back
with NOERROR and no NS record; the error names `Fqdn(os.Args[1])`, not the
configured domain, so it changes with the process arguments, and with only the
program name in `os.Args` the probe panics instead of returning. -/
theorem New_no_NS_record_names_argument :
    testConfig.Domain = "example.org"
      ∧ (New (scripted ["health", "other.net"]) testConfig background (start noNSRecord)).1
        = Outcome.returned (some
          "No NS records for \"other.net.\". It is probably a CNAME to a domain but not a zone\n")
      ∧ (New (scripted ["health", "-v"]) testConfig background (start noNSRecord)).1
        = Outcome.returned (some
          "No NS records for \"-v.\". It is probably a CNAME to a domain but not a zone\n") := by
  decide

/-- C4, evaluated on the code: with only the program name in `os.Args`, in the
world `noNSRecord`, the probe does not return: `os.Args[1]` panics with an index
out of range. -/
theorem New_no_NS_record_panics :
    (New (scripted ["health"]) testConfig background (start noNSRecord)).1
      = Outcome.panicked (Panic.indexOutOfRange 1 1) := by
  decide

/-- C5: an A or AAAA lookup of the run for the name server `ns` that comes back
with a transport error, without a response, or with an rcode other than NOERROR
makes the probe return the error that names `ns`, whatever happened before
it. -/
theorem New_lookup_failure {σ : Type} (env : Env σ) (config : Config) (ctx : Context)
    (st : State σ) (e : Sent) (ns : String)
    (he : e ∈ (New env config ctx st).2.1) (hf : e.noerror = false) :
    (e.m.Question = [⟨ns, TypeA, ClassINET⟩] →
      (New env config ctx st).1 = Outcome.returned (some
        ("Error getting the IPv4 address of " ++ ns ++ ": " ++ lookupDetail env e ++ "\n")))
    ∧ (e.m.Question = [⟨ns, TypeAAAA, ClassINET⟩] →
      (New env config ctx st).1 = Outcome.returned (some
        ("Error getting the IPv6 address of " ++ ns ++ ": " ++ lookupDetail env e ++ "\n"))) := by
  by_cases hrt : config.RequestTimeout = 0
  · rw [New_default env config hrt] at he ⊢
    exact failed_lookup_is_reported env _ ctx st DefaultTimeout_ne_zero e ns he hf
  · exact failed_lookup_is_reported env config ctx st hrt e ns he hf

theorem New_lookup_failure_witness :
    (∃ e ∈ (New (scripted ["health"]) testConfig background (start secondLookupFails)).2.1,
        e.asks TypeSOA = true ∧ e.noerror = true ∧ e.answer ≠ [])
      ∧ servfailLookup ∈
        (New (scripted ["health"]) testConfig background (start secondLookupFails)).2.1
      ∧ servfailLookup.noerror = false
      ∧ (New (scripted ["health"]) testConfig background (start secondLookupFails)).1
        = Outcome.returned (some ("Error getting the IPv4 address of " ++ "ns2.example.org."
          ++ ": " ++ lookupDetail (scripted ["health"]) servfailLookup ++ "\n")) :=
  ⟨by decide, by decide, by decide,
    (New_lookup_failure (scripted ["health"]) testConfig background (start secondLookupFails)
      servfailLookup "ns2.example.org." (by decide) (by decide)).1 rfl⟩

/-- C6, refuted as stated: invoked with a context that is already cancelled,
in the world `allAnswer`, the probe performs its lookups and returns nil. -/
theorem New_canceled_context_returns_nil :
    canceled.Err ≠ none
      ∧ (New (scripted ["health"]) testConfig canceled (start allAnswer)).2.1.length = 7
      ∧ (New (scripted ["health"]) testConfig canceled (start allAnswer)).1
        = Outcome.returned none := by
  decide

/-- C6, amended: the probe does not read its context; for every configuration,
world and state, its outcome, its exchanges and its final state are the same
for any two contexts, live, cancelled or expired. -/
theorem New_ignores_context {σ : Type} (env : Env σ) (config : Config) (ctx ctx1 : Context)
    (st : State σ) :
    New env config ctx st = New env config ctx1 st :=
  rfl

/-- C7: a zero `RequestTimeout` builds the probe of the same configuration with
`RequestTimeout = DefaultTimeout`, which is 5 seconds; a non-zero one is the
`ReadTimeout` of the client of every NS, A and AAAA lookup of every run, the
first exchange of which is the NS lookup. -/
theorem New_request_timeout {σ : Type} (env : Env σ) (config : Config) :
    DefaultTimeout = 5 * 1000000000
      ∧ (config.RequestTimeout = 0 →
        New env config = New env { config with RequestTimeout := DefaultTimeout })
      ∧ (config.RequestTimeout ≠ 0 → ∀ ctx st,
        (∃ e rest, (New env config ctx st).2.1 = e :: rest ∧ e.asks TypeNS = true)
        ∧ ∀ e ∈ (New env config ctx st).2.1,
          (e.asks TypeNS || e.asks TypeA || e.asks TypeAAAA) = true →
            e.c.ReadTimeout = config.RequestTimeout) := by
  refine ⟨rfl, New_default env config, ?_⟩
  intro hrt ctx st
  obtain ⟨rest, htr, hcls⟩ := New_trace env config ctx st hrt
  refine ⟨⟨_, rest, htr, rfl⟩, ?_⟩
  intro e he hq
  rw [htr] at he
  rcases List.mem_cons.1 he with h | h
  · rw [h]
    rfl
  · rcases hcls e h with k | k
    · rw [k.1]
    · obtain ⟨-, k2, k3, k4⟩ := SoaQuery_asks k
      rw [k2, k3, k4] at hq
      exact absurd hq (by simp)

theorem New_request_timeout_witness :
    New (scripted ["health"]) testConfig
        = New (scripted ["health"]) { testConfig with RequestTimeout := DefaultTimeout }
      ∧ ∀ e ∈ (New (scripted ["health"]) { testConfig with RequestTimeout := 250000000 }
          background (start allAnswer)).2.1,
        (e.asks TypeNS || e.asks TypeA || e.asks TypeAAAA) = true →
          e.c.ReadTimeout = 250000000 :=
  ⟨(New_request_timeout (scripted ["health"]) testConfig).2.1 (by decide),
    ((New_request_timeout (scripted ["health"])
      { testConfig with RequestTimeout := 250000000 }).2.2 (by decide)
      background (start allAnswer)).2⟩

/-- C8: the first exchange of the probe is the NS query for `Fqdn(config.Domain)`,
with recursion desired, sent to `NSServer:NSPort`.  When it comes back with a
transport error, without a response, or with an rcode that is neither NOERROR
nor NXDOMAIN, the probe returns the error `cannot retrieve the list of name
servers for Fqdn(config.Domain)`; when it comes back with NXDOMAIN, the probe
returns the error `no such domain`; in both cases no other exchange is made. -/
theorem New_first_exchange {σ : Type} (env : Env σ) (config : Config) (ctx : Context)
    (st : State σ) :
    ∃ e rest, (New env config ctx st).2.1 = e :: rest
      ∧ e.m.RecursionDesired = true
      ∧ e.m.Question = [⟨env.Fqdn config.Domain, TypeNS, ClassINET⟩]
      ∧ e.address = config.NSServer ++ ":" ++ config.NSPort
      ∧ ((e.err ≠ none ∨ e.r = none
            ∨ ∃ r, e.r = some r ∧ r.Rcode ≠ RcodeSuccess ∧ r.Rcode ≠ RcodeNameError) →
          rest = [] ∧ (New env config ctx st).1 = Outcome.returned (some
            ("cannot retrieve the list of name servers for " ++ env.Fqdn config.Domain ++ ": "
              ++ lookupDetail env e ++ "\n")))
      ∧ ((e.err = none ∧ ∃ r, e.r = some r ∧ r.Rcode = RcodeNameError) →
          rest = [] ∧ (New env config ctx st).1 = Outcome.returned (some
            ("no such domain " ++ env.Fqdn config.Domain ++ "\n"))) := by
  by_cases hrt : config.RequestTimeout = 0
  · rw [New_default env config hrt]
    exact first_exchange_core env { config with RequestTimeout := DefaultTimeout } ctx st
      DefaultTimeout_ne_zero
  · exact first_exchange_core env config ctx st hrt

theorem New_first_exchange_witness :
    (New (scripted ["health"]) testConfig background (start [reply 3 []])).1
        = Outcome.returned (some ("no such domain " ++ "example.org." ++ "\n"))
      ∧ (New (scripted ["health"]) testConfig background (start [reply 2 []])).1
        = Outcome.returned (some ("cannot retrieve the list of name servers for "
          ++ "example.org." ++ ": " ++ "no name server to answer the question" ++ "\n"))
      ∧ (New (scripted ["health"]) testConfig background (start [])).1
        = Outcome.returned (some ("cannot retrieve the list of name servers for "
          ++ "example.org." ++ ": " ++ "i/o timeout" ++ "\n")) := by
  refine ⟨?_, ?_, ?_⟩
  · obtain ⟨e, rest, htr, -, -, -, -, hnx⟩ :=
      New_first_exchange (scripted ["health"]) testConfig background (start [reply 3 []])
    have h : (New (scripted ["health"]) testConfig background (start [reply 3 []])).2.1
        = [⟨⟨DefaultTimeout⟩, ⟨0, true, 0, [⟨"example.org.", TypeNS, ClassINET⟩], []⟩,
            "192.0.2.53:53", some ⟨0, false, 3, [], []⟩, none⟩] := by decide
    rw [h] at htr
    injection htr with h1 h2
    subst h1
    exact (hnx ⟨rfl, _, rfl, rfl⟩).2
  · obtain ⟨e, rest, htr, -, -, -, hfail, -⟩ :=
      New_first_exchange (scripted ["health"]) testConfig background (start [reply 2 []])
    have h : (New (scripted ["health"]) testConfig background (start [reply 2 []])).2.1
        = [⟨⟨DefaultTimeout⟩, ⟨0, true, 0, [⟨"example.org.", TypeNS, ClassINET⟩], []⟩,
            "192.0.2.53:53", some ⟨0, false, 2, [], []⟩, none⟩] := by decide
    rw [h] at htr
    injection htr with h1 h2
    subst h1
    exact (hfail (Or.inr (Or.inr ⟨_, rfl, by decide, by decide⟩))).2
  · obtain ⟨e, rest, htr, -, -, -, hfail, -⟩ :=
      New_first_exchange (scripted ["health"]) testConfig background (start [])
    have h : (New (scripted ["health"]) testConfig background (start [])).2.1
        = [⟨⟨DefaultTimeout⟩, ⟨0, true, 0, [⟨"example.org.", TypeNS, ClassINET⟩], []⟩,
            "192.0.2.53:53", none, some "i/o timeout"⟩] := by decide
    rw [h] at htr
    injection htr with h1 h2
    subst h1
    exact (hfail (Or.inl (by decide))).2

/-- C9, refuted as stated: in the world `resolverIsNameServer`, where the
configured resolver is itself the name server the NS and A lookups bring back
and `NSPort` is `53`, the SOA query, sent without recursion desired, goes to
`NSServer:NSPort`. -/
theorem New_soa_query_to_resolver :
    ∃ e ∈ (New (scripted ["health"]) testConfig background (start resolverIsNameServer)).2.1,
      e.asks TypeSOA = true ∧ e.m.RecursionDesired = false
        ∧ e.address = testConfig.NSServer ++ ":" ++ testConfig.NSPort := by
  decide

/-- C9, amended: the first exchange of a run is the NS query, with recursion
desired, sent to `NSServer:NSPort`; every later exchange is either an A or AAAA
lookup, with recursion desired, of a name server of an NS record of the NS
response, sent to `NSServer:NSPort`, or an SOA query: without recursion desired,
with the single question (`Fqdn(config.FQDN)`, SOA, IN), sent to
`nsAddressPort ip`, port 53 of an address `ip` taken from an A record of the A
lookup or an AAAA record of the AAAA lookup of such a name server. -/
theorem New_sent {σ : Type} (env : Env σ) (config : Config) (ctx : Context)
    (st : State σ) :
    ∃ e0 rest, (New env config ctx st).2.1 = e0 :: rest
      ∧ e0.m.RecursionDesired = true
      ∧ e0.m.Question = [⟨env.Fqdn config.Domain, TypeNS, ClassINET⟩]
      ∧ e0.address = config.NSServer ++ ":" ++ config.NSPort
      ∧ ∀ e ∈ rest,
        AddressLookup config
            ⟨if config.RequestTimeout = 0 then DefaultTimeout else config.RequestTimeout⟩
            e0.answer e
          ∨ SoaQuery env config ⟨DefaultTimeout⟩ e0.answer rest e := by
  by_cases hrt : config.RequestTimeout = 0
  · rw [New_default env config hrt, if_pos hrt]
    exact exchanges_core env { config with RequestTimeout := DefaultTimeout } ctx st
      DefaultTimeout_ne_zero
  · rw [if_neg hrt]
    exact exchanges_core env config ctx st hrt

theorem New_sent_witness :
    ∃ e0 rest,
      (New (scripted ["health"]) testConfig background (start resolverIsNameServer)).2.1
        = e0 :: rest
      ∧ e0.m.RecursionDesired = true
      ∧ e0.m.Question = [⟨"example.org.", TypeNS, ClassINET⟩]
      ∧ e0.address = "192.0.2.53" ++ ":" ++ "53"
      ∧ ∀ e ∈ rest,
        AddressLookup testConfig ⟨DefaultTimeout⟩ e0.answer e
          ∨ SoaQuery (scripted ["health"]) testConfig ⟨DefaultTimeout⟩ e0.answer rest e :=
  New_sent (scripted ["health"]) testConfig background (start resolverIsNameServer)

/-- C10: the address built for the SOA query is `[ip]:53` exactly when `ip`
holds the character `:`, and `ip:53` otherwise; `strings.ContainsAny(":", ip)`,
with the arguments in this order, is `strings.Contains(ip, ":")` for every
string `ip`, the empty one included. -/
theorem nsAddressPort_eq (ip : String) :
    (nsAddressPort ip = "[" ++ ip ++ "]:53" ↔ ':' ∈ ip.toList)
      ∧ (':' ∉ ip.toList → nsAddressPort ip = ip ++ ":53")
      ∧ ContainsAny ":" ip = Contains ip ":"
      ∧ ContainsAny ":" "" = false ∧ Contains "" ":" = false := by
  have hlen : "[" ++ ip ++ "]:53" ≠ ip ++ ":53" := by
    intro h
    have h1 := congrArg String.length h
    simp only [String.length_append] at h1
    have h2 : "[".length = 1 := rfl
    have h3 : "]:53".length = 4 := rfl
    have h4 : ":53".length = 3 := rfl
    omega
  have hmem : ip.toList.contains ':' = true ↔ ':' ∈ ip.toList := List.elem_iff
  refine ⟨?_, ?_, ?_, by decide, by decide⟩
  · unfold nsAddressPort
    rw [ContainsAny_colon]
    cases hb : ip.toList.contains ':' with
    | true =>
      rw [if_pos rfl]
      exact ⟨fun _ => hmem.1 hb, fun _ => rfl⟩
    | false =>
      rw [if_neg (by simp)]
      constructor
      · intro h1
        exact absurd h1.symm hlen
      · intro h1
        rw [hmem.2 h1] at hb
        exact absurd hb (by simp)
  · intro h
    unfold nsAddressPort
    rw [ContainsAny_colon]
    cases hb : ip.toList.contains ':' with
    | true => exact absurd (hmem.1 hb) h
    | false => rw [if_neg (by simp)]
  · rw [ContainsAny_colon, Contains_colon]

theorem nsAddressPort_eq_witness :
    nsAddressPort "2001:db8::1" = "[" ++ "2001:db8::1" ++ "]:53"
      ∧ nsAddressPort "192.0.2.1" = "192.0.2.1" ++ ":53"
      ∧ nsAddressPort "" = "" ++ ":53" :=
  ⟨(nsAddressPort_eq "2001:db8::1").1.2 (by decide),
    (nsAddressPort_eq "192.0.2.1").2.1 (by decide),
    (nsAddressPort_eq "").2.1 (by decide)⟩

end dns
